import Mathlib

/- Verification of resctl-bench/src/bench/hashd_params.rs: the hashd-params
benchmark job.  The embedding covers the configuration model and its parsing
(`HashdParamsBench::parse`), the dual estimation strategy and its side
effects (`HashdParamsJob::run`), the convergence-wait protocol
(`wait_cond` closure), and result formatting (`HashdParamsJob::format`).
External collaborators (the rd-agent process, the util crate's size and
duration formatters, the default command/parameter profiles) are not part of
the repository file under verification; where a claim depends on them they
are modelled from the spec and marked as such in their doc comments. -/

set_option maxHeartbeats 1000000

/-- Decimal digit character for a digit value, as Rust's integer `Display` renders it. -/
def digitChar (d : Nat) : Char :=
  if d = 0 then '0' else if d = 1 then '1' else if d = 2 then '2'
  else if d = 3 then '3' else if d = 4 then '4' else if d = 5 then '5'
  else if d = 6 then '6' else if d = 7 then '7' else if d = 8 then '8' else '9'

/-- Decimal digit list of a natural number; structural fuel keeps it kernel-evaluable. -/
def natDigitsAux : Nat → Nat → List Char
  | 0, _ => []
  | fuel + 1, n =>
    if n < 10 then [digitChar n]
    else natDigitsAux fuel (n / 10) ++ [digitChar (n % 10)]

/-- Decimal rendering of a natural number, as Rust's `{}` formatting of unsigned integers. -/
def natToStr (n : Nat) : String := String.mk (natDigitsAux (n + 1) n)

/-- Rust's `str::parse` for the unsigned integer types (`usize`/`u64` at 64 bits,
`u32` at 32 bits): an optional leading plus sign followed by at least one ASCII
decimal digit, value below `2 ^ bits`; the error strings are the standard
library's `ParseIntError` messages. -/
def parseRustUInt (bits : Nat) (s : String) : Except String Nat :=
  if s.data = [] then Except.error "cannot parse integer from empty string"
  else
    let t := if s.data.head? = some '+' then s.data.tail else s.data
    if t = [] then Except.error "invalid digit found in string"
    else if t.all Char.isDigit then
      let n := t.foldl (fun a c => 10 * a + (c.toNat - 48)) 0
      if n < 2 ^ bits then Except.ok n
      else Except.error "number too large to fit in target type"
    else Except.error "invalid digit found in string"

/-- Rust's `str::parse::<bool>`: exactly "true" or "false"; the error string is
the standard library's `ParseBoolError` message. -/
def parseRustBool (s : String) : Except String Bool :=
  if s = "true" then Except.ok true
  else if s = "false" then Except.ok false
  else Except.error "provided string was not `true` or `false`"

/-- Modelled from the spec: the process-wide defaults the job reads from its
external collaborators, none of which are under the repository file being
verified — `rd_agent_intf::Cmd::default()` (default balloon size and log rate),
`rd_hashd_intf::Args::with_mem_size(total_memory())` (default memory footprint,
preload cache size, log size), `rd_hashd_intf::Params::default()` (mean file
size, chunk page count, file and memory fractions; `f64` fractions are modelled
as rationals) and `RunCtx::BENCH_FAKE_CPU_RPS_MAX` (fixed rps ceiling).
Theorems quantify over this structure. -/
structure Defaults where
  cmd_balloon_size : Nat
  cmd_log_bps : Nat
  args_size : Nat
  args_preload_size : Nat
  args_log_size : Nat
  params_file_size_mean : Nat
  params_chunk_pages : Nat
  params_file_frac : ℚ
  params_mem_frac : ℚ
  bench_fake_cpu_rps_max : Nat
  deriving DecidableEq, Repr

/-- The job configuration, `struct HashdParamsJob` of the source. -/
structure HashdParamsJob where
  passive : Bool
  balloon_size : Nat
  log_bps : Nat
  fake_cpu_load : Bool
  hash_size : Option Nat
  chunk_pages : Option Nat
  rps_max : Option Nat
  deriving DecidableEq, Repr

/-- `impl Default for HashdParamsJob`: passive and fake_cpu_load off, balloon
size and log rate from the default command configuration, no overrides. -/
def HashdParamsJob.default (d : Defaults) : HashdParamsJob :=
  { passive := false
    balloon_size := d.cmd_balloon_size
    log_bps := d.cmd_log_bps
    fake_cpu_load := false
    hash_size := none
    chunk_pages := none
    rps_max := none }

/-- The two failure shapes of `HashdParamsBench::parse`: `unknownKey` is the
`bail!("unknown property key {:?}", k)` arm (it carries the offending key);
`parseFailure` is a value-parse error propagated by the `?` operator (it
carries only the underlying parse error's message, no key). -/
inductive ParseError where
  | unknownKey (key : String)
  | parseFailure (cause : String)
  deriving DecidableEq, Repr

/-- Propagation of a value-parse result into the job parser, as the `?`
operator does: a success feeds the update, a failure becomes the returned
error with no key attached. -/
def withParsed {α : Type} (r : Except String α) (f : α → HashdParamsJob) :
    Except ParseError HashdParamsJob :=
  match r with
  | Except.ok a => Except.ok (f a)
  | Except.error e => Except.error (ParseError.parseFailure e)

/-- One arm of the `match k.as_str()` in `HashdParamsBench::parse`: update the
job for a recognized key, fail on a malformed value, and fail with
`unknownKey` on anything else.  Boolean flags treat the empty value as true
without attempting a parse (`v.len() == 0 || v.parse::<bool>()?`). -/
def applyProp (job : HashdParamsJob) (k v : String) : Except ParseError HashdParamsJob :=
  if k = "passive" then
    if v.length = 0 then Except.ok { job with passive := true }
    else withParsed (parseRustBool v) (fun b => { job with passive := b })
  else if k = "balloon" then
    withParsed (parseRustUInt 64 v) (fun n => { job with balloon_size := n })
  else if k = "log-bps" then
    withParsed (parseRustUInt 64 v) (fun n => { job with log_bps := n })
  else if k = "fake-cpu-load" then
    if v.length = 0 then Except.ok { job with fake_cpu_load := true }
    else withParsed (parseRustBool v) (fun b => { job with fake_cpu_load := b })
  else if k = "hash-size" then
    withParsed (parseRustUInt 64 v) (fun n => { job with hash_size := some n })
  else if k = "chunk-pages" then
    withParsed (parseRustUInt 64 v) (fun n => { job with chunk_pages := some n })
  else if k = "rps-max" then
    withParsed (parseRustUInt 32 v) (fun n => { job with rps_max := some n })
  else Except.error (ParseError.unknownKey k)

/-- The `for (k, v) in spec.props[0].iter()` loop: fold the property entries
over the default job, stopping at the first failure. -/
def parseProps (job : HashdParamsJob) : List (String × String) → Except ParseError HashdParamsJob
  | [] => Except.ok job
  | (k, v) :: rest =>
    match applyProp job k v with
    | Except.ok j => parseProps j rest
    | Except.error e => Except.error e

/-- `HashdParamsBench::parse`: start from the default job and consume only the
first property group of the job spec (`spec.props[0]`; the harness guarantees
at least one group, modelled with `headD`). -/
def benchParse (d : Defaults) (props : List (List (String × String))) :
    Except ParseError HashdParamsJob :=
  parseProps (HashdParamsJob.default d) (props.headD [])

/-- The recognized property-key set of `HashdParamsBench::parse`. -/
def recognized (k : String) : Bool :=
  decide (k = "passive" ∨ k = "balloon" ∨ k = "log-bps" ∨ k = "fake-cpu-load" ∨
    k = "hash-size" ∨ k = "chunk-pages" ∨ k = "rps-max")

/-- A fixed job used only to probe whether a key/value entry parses; whether
`applyProp` succeeds does not depend on the job it updates. -/
def probeJob : HashdParamsJob :=
  { passive := false, balloon_size := 0, log_bps := 0, fake_cpu_load := false
    hash_size := none, chunk_pages := none, rps_max := none }

/-- Success discriminator for the parser's result. -/
def isOkE {ε α : Type} : Except ε α → Bool
  | Except.ok _ => true
  | Except.error _ => false

/-- A property group contains a key outside the recognized set. -/
def groupHasUnknown (g : List (String × String)) : Bool :=
  g.any (fun kv => !recognized kv.1)

/-- Every recognized key of the group carries a value that parses as its
declared type. -/
def groupValuesOk (g : List (String × String)) : Bool :=
  g.all (fun kv => !recognized kv.1 || isOkE (applyProp probeJob kv.1 kv.2))

/-- Concrete stand-in for the process-wide defaults, used in closed witnesses;
the theorems themselves quantify over all `Defaults`. -/
def dfl : Defaults :=
  { cmd_balloon_size := 1073741824
    cmd_log_bps := 1048576
    args_size := 16777216
    args_preload_size := 8388608
    args_log_size := 1048576
    params_file_size_mean := 1048576
    params_chunk_pages := 25
    params_file_frac := 1
    params_mem_frac := 1
    bench_fake_cpu_rps_max := 2000 }

/-- A value-propagation result is an error exactly when the underlying parse
failed, and the error holds only the parse error's message. -/
theorem withParsed_error_iff {α : Type} (r : Except String α) (f : α → HashdParamsJob)
    (e : ParseError) :
    withParsed r f = Except.error e ↔ ∃ m, r = Except.error m ∧ e = ParseError.parseFailure m := by
  cases r <;> simp [withParsed, eq_comm]

/-- Whether and how `applyProp` fails does not depend on the job being updated. -/
theorem applyProp_error_agnostic (j j' : HashdParamsJob) (k v : String) (e : ParseError)
    (h : applyProp j k v = Except.error e) : applyProp j' k v = Except.error e := by
  unfold applyProp at h ⊢
  split_ifs at h ⊢ <;>
    first
      | exact h
      | exact absurd h (by simp)
      | (rw [withParsed_error_iff] at h ⊢; exact h)

/-- Whether `applyProp` succeeds does not depend on the job being updated. -/
theorem isOkE_applyProp_agnostic (j j' : HashdParamsJob) (k v : String) :
    isOkE (applyProp j k v) = isOkE (applyProp j' k v) := by
  cases hj : applyProp j k v with
  | error e => rw [applyProp_error_agnostic j j' k v e hj]
  | ok a =>
    cases hj' : applyProp j' k v with
    | error e => exact absurd (applyProp_error_agnostic j' j k v e hj') (by simp [hj])
    | ok b => rfl

/-- An entry that parses against the probe job parses against any job. -/
theorem applyProp_ok_exists (j : HashdParamsJob) (k v : String)
    (h : isOkE (applyProp probeJob k v) = true) :
    ∃ j2, applyProp j k v = Except.ok j2 := by
  cases hj : applyProp j k v with
  | ok a => exact ⟨a, rfl⟩
  | error e =>
    rw [isOkE_applyProp_agnostic probeJob j k v, hj] at h
    simp [isOkE] at h

/-- An unrecognized key makes `applyProp` fail with `unknownKey` naming it. -/
theorem applyProp_unknown (j : HashdParamsJob) (k v : String) (h : recognized k = false) :
    applyProp j k v = Except.error (ParseError.unknownKey k) := by
  simp only [recognized, decide_eq_false_iff_not] at h
  push_neg at h
  obtain ⟨h1, h2, h3, h4, h5, h6, h7⟩ := h
  simp [applyProp, h1, h2, h3, h4, h5, h6, h7]

/-- On a recognized key, the only failure `applyProp` can produce is a
`parseFailure`; it never carries the key. -/
theorem applyProp_recognized_error_shape (j : HashdParamsJob) (k v : String) (e : ParseError)
    (hk : recognized k = true) (h : applyProp j k v = Except.error e) :
    ∃ m, e = ParseError.parseFailure m := by
  unfold applyProp at h
  split_ifs at h <;>
    first
      | (rw [withParsed_error_iff] at h; exact ⟨h.choose, h.choose_spec.2⟩)
      | (simp only [recognized, decide_eq_true_eq] at hk
         exfalso; rcases hk with h' | h' | h' | h' | h' | h' | h' <;> simp_all)

/-- A group with an unknown key never parses. -/
theorem parseProps_fail_of_unknown (g : List (String × String)) :
    ∀ j : HashdParamsJob, groupHasUnknown g = true → isOkE (parseProps j g) = false := by
  induction g with
  | nil => intro j h; simp [groupHasUnknown] at h
  | cons kv rest ih =>
    intro j h
    obtain ⟨k, v⟩ := kv
    by_cases hr : recognized k = true
    · cases ha : applyProp j k v with
      | error e => simp [parseProps, ha, isOkE]
      | ok j2 =>
        have hrest : groupHasUnknown rest = true := by
          simp only [groupHasUnknown, List.any_cons, Bool.or_eq_true] at h ⊢
          rcases h with h | h
          · rw [hr] at h; simp at h
          · exact h
        simp only [parseProps, ha]
        exact ih j2 hrest
    · have hk : recognized k = false := by simpa using hr
      simp [parseProps, applyProp_unknown j k v hk, isOkE]

/-- A group with only recognized keys and well-formed values parses. -/
theorem parseProps_ok (g : List (String × String)) :
    ∀ j : HashdParamsJob, groupHasUnknown g = false → groupValuesOk g = true →
      ∃ j2, parseProps j g = Except.ok j2 := by
  induction g with
  | nil => intro j _ _; exact ⟨j, rfl⟩
  | cons kv rest ih =>
    intro j hu hv
    obtain ⟨k, v⟩ := kv
    simp only [groupHasUnknown, List.any_cons, Bool.or_eq_false_iff,
      Bool.not_eq_false'] at hu
    simp only [groupValuesOk, List.all_cons, Bool.and_eq_true] at hv
    have hvk : isOkE (applyProp probeJob k v) = true := by
      rcases Bool.or_eq_true_iff.mp hv.1 with h | h
      · rw [hu.1] at h; simp at h
      · exact h
    obtain ⟨j2, hj2⟩ := applyProp_ok_exists j k v hvk
    obtain ⟨j3, hj3⟩ := ih j2 (by simpa [groupHasUnknown] using hu.2) hv.2
    exact ⟨j3, by simp [parseProps, hj2, hj3]⟩

/-- When every recognized value is well formed, a group with an unknown key
fails with `unknownKey` naming an unknown key of the group. -/
theorem parseProps_unknown_first (g : List (String × String)) :
    ∀ j : HashdParamsJob, groupHasUnknown g = true → groupValuesOk g = true →
      ∃ k v, (k, v) ∈ g ∧ recognized k = false ∧
        parseProps j g = Except.error (ParseError.unknownKey k) := by
  induction g with
  | nil => intro j h _; simp [groupHasUnknown] at h
  | cons kv rest ih =>
    intro j h hv
    obtain ⟨k, v⟩ := kv
    simp only [groupValuesOk, List.all_cons, Bool.and_eq_true] at hv
    by_cases hr : recognized k = true
    · have hvk : isOkE (applyProp probeJob k v) = true := by
        rcases Bool.or_eq_true_iff.mp hv.1 with h' | h'
        · rw [hr] at h'; simp at h'
        · exact h'
      obtain ⟨j2, hj2⟩ := applyProp_ok_exists j k v hvk
      have hrest : groupHasUnknown rest = true := by
        simp only [groupHasUnknown, List.any_cons, Bool.or_eq_true] at h ⊢
        rcases h with h' | h'
        · rw [hr] at h'; simp at h'
        · exact h'
      obtain ⟨k', v', hmem, hk', hres⟩ := ih j2 hrest hv.2
      exact ⟨k', v', List.mem_cons_of_mem _ hmem, hk', by simp [parseProps, hj2, hres]⟩
    · have hk : recognized k = false := by simpa using hr
      exact ⟨k, v, List.mem_cons_self _ _, hk,
        by simp [parseProps, applyProp_unknown j k v hk]⟩

/-- A string of length zero is the empty string. -/
theorem str_eq_empty_of_length (s : String) (h : s.length = 0) : s = "" := by
  cases s with
  | mk l =>
    cases l with
    | nil => rfl
    | cons a t => simp [String.length] at h

/-- Claim C3, amended: a property group containing an unknown key never
parses; when in addition every recognized key's value is well formed, the
failure is an `unknownKey` error naming an unknown key of the group (with a
malformed value on an earlier recognized key, the parse error wins instead —
see the counterexample); a group with only recognized keys and parseable
values parses successfully. -/
theorem hashd_params_parse_rejects_unknown (d : Defaults) (g : List (String × String))
    (rest : List (List (String × String))) :
    (groupHasUnknown g = true → isOkE (benchParse d (g :: rest)) = false) ∧
    (groupHasUnknown g = true → groupValuesOk g = true →
      ∃ k v, (k, v) ∈ g ∧ recognized k = false ∧
        benchParse d (g :: rest) = Except.error (ParseError.unknownKey k)) ∧
    (groupHasUnknown g = false → groupValuesOk g = true →
      ∃ j, benchParse d (g :: rest) = Except.ok j) := by
  refine ⟨fun h => ?_, fun h hv => ?_, fun h hv => ?_⟩
  · exact parseProps_fail_of_unknown g (HashdParamsJob.default d) h
  · exact parseProps_unknown_first g (HashdParamsJob.default d) h hv
  · exact parseProps_ok g (HashdParamsJob.default d) h hv

/-- Claim C3, counterexample to the claim as stated: the mapping
`{"balloon": "x", "zzz": "1"}` contains the unrecognized key "zzz" (in
`BTreeMap` iteration order "balloon" comes first), yet parsing fails with the
propagated integer-parse error, not with an `UnknownProperty` error naming
"zzz". -/
theorem hashd_params_parse_unknown_key_cex :
    groupHasUnknown [("balloon", "x"), ("zzz", "1")] = true ∧
    benchParse dfl [[("balloon", "x"), ("zzz", "1")]] =
      Except.error (ParseError.parseFailure "invalid digit found in string") := by
  exact ⟨by decide, rfl⟩

/-- Claim C10: parsing consumes only the first property group of the job
spec; the groups after the first never influence the parsed configuration and
never produce an error. -/
theorem hashd_params_parse_first_group_only (d : Defaults) (g : List (String × String))
    (rest rest2 : List (List (String × String))) :
    benchParse d (g :: rest) = benchParse d [g] ∧
    benchParse d (g :: rest) = benchParse d (g :: rest2) :=
  ⟨rfl, rfl⟩

/-- Claim C6, amended: when a recognized key's value fails to parse as its
declared type, parsing fails with the underlying parse error alone — the
error carries the parse failure's message but not the offending key (the `?`
operator propagates the value's parse error verbatim; only the unknown-key
arm names a key). -/
theorem hashd_params_malformed_value (d : Defaults) (k v m : String) :
    (applyProp probeJob k v = Except.error (ParseError.parseFailure m) →
      benchParse d [[(k, v)]] = Except.error (ParseError.parseFailure m)) ∧
    (recognized k = true →
      ∀ k2, benchParse d [[(k, v)]] ≠ Except.error (ParseError.unknownKey k2)) := by
  constructor
  · intro h
    have h2 := applyProp_error_agnostic probeJob (HashdParamsJob.default d) k v _ h
    simp [benchParse, parseProps, h2]
  · intro hk k2 hcontra
    have hb : benchParse d [[(k, v)]] = parseProps (HashdParamsJob.default d) [(k, v)] := rfl
    rw [hb] at hcontra
    cases ha : applyProp (HashdParamsJob.default d) k v with
    | ok j => simp [parseProps, ha] at hcontra
    | error e =>
      simp only [parseProps, ha] at hcontra
      obtain ⟨m2, hm2⟩ :=
        applyProp_recognized_error_shape (HashdParamsJob.default d) k v e hk ha
      rw [hm2] at hcontra
      exact ParseError.noConfusion (Except.error.inj hcontra)

/-- Claim C6, witness: the malformed value "x" for the recognized key
"balloon" makes parsing fail with exactly the integer-parse error message. -/
theorem hashd_params_malformed_value_witness :
    benchParse dfl [[("balloon", "x")]] =
      Except.error (ParseError.parseFailure "invalid digit found in string") :=
  (hashd_params_malformed_value dfl "balloon" "x" "invalid digit found in string").1 rfl

/-- Claim C6, counterexample to the claim as stated: the error for a
malformed "balloon" value does not carry the key — it is byte-for-byte the
same error an equally malformed "log-bps" value produces, so no
`MalformedValue(key, cause)` carrying the offending key is raised. -/
theorem hashd_params_malformed_value_cex :
    benchParse dfl [[("balloon", "x")]] =
      Except.error (ParseError.parseFailure "invalid digit found in string") ∧
    benchParse dfl [[("balloon", "x")]] = benchParse dfl [[("log-bps", "x")]] :=
  ⟨rfl, rfl⟩

/-- Parsing a single-entry mapping whose key dispatches to a numeric value
parse (`applyProp` reduces to `withParsed` of `parseRustUInt`): a parse
success is recorded verbatim in the designated field and nothing else, and a
parse failure propagates as the bare parse error. -/
theorem parse_single_num (d : Defaults) (k v : String) (bits : Nat)
    (f : Nat → HashdParamsJob) (e : HashdParamsJob → Nat)
    (hA : applyProp (HashdParamsJob.default d) k v = withParsed (parseRustUInt bits v) f)
    (hE : ∀ a, e (f a) = a) :
    (∀ n, benchParse d [[(k, v)]] = Except.ok (f n) → parseRustUInt bits v = Except.ok n) ∧
    (∀ n, parseRustUInt bits v = Except.ok n → benchParse d [[(k, v)]] = Except.ok (f n)) ∧
    (∀ m, parseRustUInt bits v = Except.error m →
      benchParse d [[(k, v)]] = Except.error (ParseError.parseFailure m)) := by
  have hb : benchParse d [[(k, v)]] = parseProps (HashdParamsJob.default d) [(k, v)] := rfl
  refine ⟨fun n h => ?_, fun n h => ?_, fun m h => ?_⟩
  · rw [hb] at h
    cases hp : parseRustUInt bits v with
    | ok a =>
      simp only [parseProps, hA, withParsed, hp] at h
      have hfa := congrArg e (Except.ok.inj h)
      rw [hE, hE] at hfa
      rw [hfa]
    | error m2 =>
      simp only [parseProps, hA, withParsed, hp] at h
      exact absurd h (by simp)
  · rw [hb]
    simp [parseProps, hA, withParsed, h]
  · rw [hb]
    simp [parseProps, hA, withParsed, h]

/-- Claim C8: both boolean flag keys (passive and fake-cpu-load) accept the
empty value as true (in particular `{"passive": ""}` yields `passive =
true`), a non-empty value must be the boolean it denotes ("true"/"false")
and anything else fails with the boolean parse error; and every numeric key
(balloon, log-bps, hash-size, chunk-pages at 64 bits; rps-max at its
declared u32 width) succeeds exactly when its value parses as the declared
unsigned integer type, recording the parsed number, and fails with the
propagated parse error otherwise. -/
theorem hashd_params_bool_flag_parsing (d : Defaults) (v : String) :
    benchParse d [[("passive", "")]] =
      Except.ok { HashdParamsJob.default d with passive := true } ∧
    benchParse d [[("fake-cpu-load", "")]] =
      Except.ok { HashdParamsJob.default d with fake_cpu_load := true } ∧
    benchParse d [[("passive", "true")]] =
      Except.ok { HashdParamsJob.default d with passive := true } ∧
    benchParse d [[("passive", "false")]] =
      Except.ok { HashdParamsJob.default d with passive := false } ∧
    benchParse d [[("fake-cpu-load", "true")]] =
      Except.ok { HashdParamsJob.default d with fake_cpu_load := true } ∧
    benchParse d [[("fake-cpu-load", "false")]] =
      Except.ok { HashdParamsJob.default d with fake_cpu_load := false } ∧
    (v ≠ "" → v ≠ "true" → v ≠ "false" →
      benchParse d [[("passive", v)]] =
        Except.error (ParseError.parseFailure "provided string was not `true` or `false`")) ∧
    (v ≠ "" → v ≠ "true" → v ≠ "false" →
      benchParse d [[("fake-cpu-load", v)]] =
        Except.error (ParseError.parseFailure "provided string was not `true` or `false`")) ∧
    (∀ n, benchParse d [[("balloon", v)]] =
        Except.ok { HashdParamsJob.default d with balloon_size := n } →
      parseRustUInt 64 v = Except.ok n) ∧
    (∀ n, parseRustUInt 64 v = Except.ok n →
      benchParse d [[("balloon", v)]] =
        Except.ok { HashdParamsJob.default d with balloon_size := n }) ∧
    (∀ m, parseRustUInt 64 v = Except.error m →
      benchParse d [[("balloon", v)]] = Except.error (ParseError.parseFailure m)) ∧
    (∀ n, benchParse d [[("log-bps", v)]] =
        Except.ok { HashdParamsJob.default d with log_bps := n } →
      parseRustUInt 64 v = Except.ok n) ∧
    (∀ n, parseRustUInt 64 v = Except.ok n →
      benchParse d [[("log-bps", v)]] =
        Except.ok { HashdParamsJob.default d with log_bps := n }) ∧
    (∀ m, parseRustUInt 64 v = Except.error m →
      benchParse d [[("log-bps", v)]] = Except.error (ParseError.parseFailure m)) ∧
    (∀ n, benchParse d [[("hash-size", v)]] =
        Except.ok { HashdParamsJob.default d with hash_size := some n } →
      parseRustUInt 64 v = Except.ok n) ∧
    (∀ n, parseRustUInt 64 v = Except.ok n →
      benchParse d [[("hash-size", v)]] =
        Except.ok { HashdParamsJob.default d with hash_size := some n }) ∧
    (∀ m, parseRustUInt 64 v = Except.error m →
      benchParse d [[("hash-size", v)]] = Except.error (ParseError.parseFailure m)) ∧
    (∀ n, benchParse d [[("chunk-pages", v)]] =
        Except.ok { HashdParamsJob.default d with chunk_pages := some n } →
      parseRustUInt 64 v = Except.ok n) ∧
    (∀ n, parseRustUInt 64 v = Except.ok n →
      benchParse d [[("chunk-pages", v)]] =
        Except.ok { HashdParamsJob.default d with chunk_pages := some n }) ∧
    (∀ m, parseRustUInt 64 v = Except.error m →
      benchParse d [[("chunk-pages", v)]] = Except.error (ParseError.parseFailure m)) ∧
    (∀ n, benchParse d [[("rps-max", v)]] =
        Except.ok { HashdParamsJob.default d with rps_max := some n } →
      parseRustUInt 32 v = Except.ok n) ∧
    (∀ n, parseRustUInt 32 v = Except.ok n →
      benchParse d [[("rps-max", v)]] =
        Except.ok { HashdParamsJob.default d with rps_max := some n }) ∧
    (∀ m, parseRustUInt 32 v = Except.error m →
      benchParse d [[("rps-max", v)]] = Except.error (ParseError.parseFailure m)) := by
  have hballoon := parse_single_num d "balloon" v 64
    (fun n => { HashdParamsJob.default d with balloon_size := n })
    (fun j => j.balloon_size) rfl (fun a => rfl)
  have hlog := parse_single_num d "log-bps" v 64
    (fun n => { HashdParamsJob.default d with log_bps := n })
    (fun j => j.log_bps) rfl (fun a => rfl)
  have hhash := parse_single_num d "hash-size" v 64
    (fun n => { HashdParamsJob.default d with hash_size := some n })
    (fun j => j.hash_size.getD 0) rfl (fun a => rfl)
  have hchunk := parse_single_num d "chunk-pages" v 64
    (fun n => { HashdParamsJob.default d with chunk_pages := some n })
    (fun j => j.chunk_pages.getD 0) rfl (fun a => rfl)
  have hrps := parse_single_num d "rps-max" v 32
    (fun n => { HashdParamsJob.default d with rps_max := some n })
    (fun j => j.rps_max.getD 0) rfl (fun a => rfl)
  refine ⟨rfl, rfl, rfl, rfl, rfl, rfl, fun h1 h2 h3 => ?_, fun h1 h2 h3 => ?_,
    hballoon.1, hballoon.2.1, hballoon.2.2, hlog.1, hlog.2.1, hlog.2.2,
    hhash.1, hhash.2.1, hhash.2.2, hchunk.1, hchunk.2.1, hchunk.2.2,
    hrps.1, hrps.2.1, hrps.2.2⟩
  · have hlen : ¬ v.length = 0 := fun h0 => h1 (str_eq_empty_of_length v h0)
    simp [benchParse, parseProps, applyProp, if_neg hlen, parseRustBool, h2, h3, withParsed]
  · have hlen : ¬ v.length = 0 := fun h0 => h1 (str_eq_empty_of_length v h0)
    simp [benchParse, parseProps, applyProp, if_neg hlen, parseRustBool, h2, h3, withParsed]

/-- Modelled from the spec: the util crate's `format_size` (outside the file
under verification) renders a byte count in human-readable byte units. -/
def format_size (v : Nat) : String :=
  if v < 1024 then natToStr v ++ "B"
  else if v < 1048576 then natToStr (v / 1024) ++ "K"
  else if v < 1073741824 then natToStr (v / 1048576) ++ "M"
  else natToStr (v / 1073741824) ++ "G"

/-- Modelled from the spec: the util crate's human-readable duration rendering. -/
def format_duration (v : Nat) : String := natToStr v ++ "ms"

/-- Modelled from the spec: an absent size reading renders as the dashed
placeholder, never as a crash (`format_size_dashed` of the util crate). -/
def format_size_dashed : Option Nat → String
  | none => "-"
  | some v => format_size v

/-- Modelled from the spec: an absent latency reading renders as the dashed
placeholder, never as a crash (`format_duration_dashed` of the util crate). -/
def format_duration_dashed : Option Nat → String
  | none => "-"
  | some v => format_duration v

/-- Rust's right-aligning width-5 format padding (`{:>5}`). -/
def padLeft5 (s : String) : String :=
  if 5 ≤ s.length then s else String.mk (List.replicate (5 - s.length) ' ') ++ s

/-- One ConvergenceSnapshot: the live state the `wait_cond` closure reads on a
poll tick — `af.cmd.data.bench_hashd_seq`, `af.bench.data.hashd_seq`,
`rep.bench_hashd.phase.name()`, `rep.bench_hashd.mem_probe_size`, the root
slice I/O throughput readings and the read latency percentiles (the readings
may be absent; absence is modelled with `Option` per the spec's inbound
live-state interface). -/
structure Snapshot where
  cmd_bench_hashd_seq : Nat
  bench_hashd_seq : Nat
  phase_name : String
  mem_probe_size : Nat
  io_rbps : Option Nat
  io_wbps : Option Nat
  lat_p50 : Option Nat
  lat_p90 : Option Nat
  lat_p99 : Option Nat
  deriving DecidableEq, Repr

/-- Concatenation of a list of string segments. -/
def strConcat : List String → String
  | [] => ""
  | a :: rest => a ++ strConcat rest

/-- The segments of the progress line, in the order of the source's format
string "[{}] mem: {:>5} rw:{:>5}/{:>5} p50/90/99: {:>5}/{:>5}/{:>5}". -/
def statusSegments (s : Snapshot) : List String :=
  ["[", s.phase_name, "] mem: ", padLeft5 (format_size s.mem_probe_size),
   " rw:", padLeft5 (format_size_dashed s.io_rbps), "/",
   padLeft5 (format_size_dashed s.io_wbps),
   " p50/90/99: ", padLeft5 (format_duration_dashed s.lat_p50), "/",
   padLeft5 (format_duration_dashed s.lat_p90), "/",
   padLeft5 (format_duration_dashed s.lat_p99)]

/-- The progress line the `wait_cond` closure hands to `progress.set_status`
on every tick. -/
def statusLine (s : Snapshot) : String := strConcat (statusSegments s)

/-- The termination predicate of the `wait_cond` closure:
`bench.hashd_seq >= cmd.bench_hashd_seq`. -/
def snapDone (s : Snapshot) : Bool := decide (s.cmd_bench_hashd_seq ≤ s.bench_hashd_seq)

/-- The `wait_cond` closure of `HashdParamsJob::run`: renders the progress
line, then reports whether the sequence rendezvous holds. -/
def waitClosure (s : Snapshot) : String × Bool := (statusLine s, snapDone s)

/-- Modelled from the spec: `RunCtx::wait_cond`'s polling driver (outside the
file under verification) calls the closure once per polled snapshot and stops
at the first tick on which the closure returns true.  Given the sequence of
polled snapshots it returns the progress lines rendered (one per consumed
tick, the terminating tick included) and the index of the terminating tick
(`none` when the rendezvous never holds within the sequence — the loop is
still waiting, or was cancelled). -/
def waitCond : List Snapshot → List String × Option Nat
  | [] => ([], none)
  | s :: rest =>
    let c := waitClosure s
    if c.2 then ([c.1], some 0)
    else
      let r := waitCond rest
      (c.1 :: r.1, r.2.map (fun i => i + 1))

/-- The persisted benchmark result (`rd_agent_intf::HashdKnobs`, read back as
`af.bench.data.hashd`) with the fields `HashdParamsJob::format` consumes; the
f64 memory fraction is modelled as a rational. -/
structure HashdKnobs where
  hash_size : Nat
  rps_max : Nat
  mem_size : Nat
  mem_frac : ℚ
  chunk_pages : Nat
  deriving DecidableEq, Repr

/-- The start request of the fake-cpu-load path, `struct HashdFakeCpuBench`
exactly as its construction site in `HashdParamsJob::run` populates it (the
field list is total, so this is the complete field set). -/
structure HashdFakeCpuBench where
  size : Nat
  balloon_size : Nat
  preload_size : Nat
  log_bps : Nat
  log_size : Nat
  hash_size : Nat
  chunk_pages : Nat
  rps_max : Nat
  file_frac : ℚ
  deriving DecidableEq, Repr

/-- The `HashdFakeCpuBench { .. }` construction in `HashdParamsJob::run`:
defaults from the default sizing profile, overrides from the configuration
(`unwrap_or` on each optional field), file fraction copied unchanged. -/
def mkHashdFakeCpuBench (d : Defaults) (job : HashdParamsJob) : HashdFakeCpuBench :=
  { size := d.args_size
    balloon_size := job.balloon_size
    preload_size := d.args_preload_size
    log_bps := job.log_bps
    log_size := d.args_log_size
    hash_size := job.hash_size.getD d.params_file_size_mean
    chunk_pages := job.chunk_pages.getD d.params_chunk_pages
    rps_max := job.rps_max.getD d.bench_fake_cpu_rps_max
    file_frac := d.params_file_frac }

/-- Modelled from the spec: the result the fake-cpu-load calibration produces
(the agent-side bench behind `HashdFakeCpuBench::start` is outside the file
under verification) — hash size, chunk pages and max request rate from the
start request, memory size the default footprint, memory fraction copied from
the default profile unchanged. -/
def fakeCpuLocalResult (d : Defaults) (job : HashdParamsJob) : HashdKnobs :=
  { hash_size := (mkHashdFakeCpuBench d job).hash_size
    rps_max := (mkHashdFakeCpuBench d job).rps_max
    mem_size := (mkHashdFakeCpuBench d job).size
    mem_frac := d.params_mem_frac
    chunk_pages := (mkHashdFakeCpuBench d job).chunk_pages }

/-- The extra start arguments of the delegated path, pushed in source order
(hash-size, chunk-pages, rps-max), each present exactly when the
corresponding option was overridden. -/
def extraArgs (job : HashdParamsJob) : List String :=
  (match job.hash_size with
    | some v => ["--bench-hash-size=" ++ natToStr v]
    | none => []) ++
  (match job.chunk_pages with
    | some v => ["--bench-chunk-pages=" ++ natToStr v]
    | none => []) ++
  (match job.rps_max with
    | some v => ["--bench-rps-max=" ++ natToStr v]
    | none => [])

/-- The observable side effects of `HashdParamsJob::run`, in program order. -/
inductive Effect where
  | setPassiveKeepCritMemProt
  | setCommitBench
  | startAgent
  | startFakeCpuBench (bench : HashdFakeCpuBench)
  | startHashdBench (balloon_size : Nat) (log_bps : Nat) (extra_args : List String)
  | pollTick (status : String)
  | readResult
  deriving DecidableEq, Repr

/-- The effects every run performs before branching: the optional passive
memory-protection relaxation, then `set_commit_bench().start_agent()`. -/
def runPrelude (job : HashdParamsJob) : List Effect :=
  (if job.passive then [Effect.setPassiveKeepCritMemProt] else []) ++
    [Effect.setCommitBench, Effect.startAgent]

/-- The start request issued by the branch on `fake_cpu_load`: the fake-CPU
bench start, or `start_hashd_bench(balloon_size, log_bps, extra_args)`. -/
def startRequest (d : Defaults) (job : HashdParamsJob) : List Effect :=
  if job.fake_cpu_load then [Effect.startFakeCpuBench (mkHashdFakeCpuBench d job)]
  else [Effect.startHashdBench job.balloon_size job.log_bps (extraArgs job)]

/-- `HashdParamsJob::run` as an effect trace over the sequence of polled
snapshots: prelude, start request, one poll tick per consumed snapshot, and —
only when the rendezvous was reached — the read of the persisted result
(`af.bench.data.hashd`, the `persisted` argument).  A snapshot list the
rendezvous never holds in models a wait that is still blocked or was
cancelled: no result is produced. -/
def HashdParamsJob.run (job : HashdParamsJob) (d : Defaults) (snaps : List Snapshot)
    (persisted : HashdKnobs) : List Effect × Option HashdKnobs :=
  let w := waitCond snaps
  let ticks := w.1.map Effect.pollTick
  match w.2 with
  | some _ =>
    (runPrelude job ++ startRequest d job ++ ticks ++ [Effect.readResult], some persisted)
  | none => (runPrelude job ++ startRequest d job ++ ticks, none)

/-- Unfolding equation for the wait loop on a non-empty snapshot list. -/
theorem waitCond_cons (s : Snapshot) (rest : List Snapshot) :
    waitCond (s :: rest) =
      if snapDone s then ([statusLine s], some 0)
      else (statusLine s :: (waitCond rest).1, (waitCond rest).2.map (fun i => i + 1)) := rfl

/-- The wait loop reports index n exactly when the n-th polled snapshot is the
first one satisfying the sequence rendezvous. -/
theorem waitCond_idx_iff (snaps : List Snapshot) (n : Nat) :
    (waitCond snaps).2 = some n ↔
      ((snaps[n]?).map snapDone = some true ∧
        ∀ j, j < n → (snaps[j]?).map snapDone = some false) := by
  induction snaps generalizing n with
  | nil => simp [waitCond]
  | cons s rest ih =>
    rw [waitCond_cons]
    by_cases hd : snapDone s = true
    · rw [if_pos hd]
      cases n with
      | zero => simp [hd]
      | succ m =>
        simp only [List.getElem?_cons_succ]
        constructor
        · intro h; simp at h
        · rintro ⟨h1, h2⟩
          have h0 := h2 0 (Nat.succ_pos m)
          rw [List.getElem?_cons_zero] at h0
          simp [hd] at h0
    · rw [if_neg hd]
      have hd' : snapDone s = false := by simpa using hd
      cases n with
      | zero =>
        simp [Option.map_eq_some', hd']
      | succ m =>
        constructor
        · intro h
          obtain ⟨a, ha, hae⟩ := Option.map_eq_some'.mp h
          have ham : a = m := by omega
          rw [ham] at ha
          obtain ⟨hr1, hr2⟩ := (ih m).mp ha
          refine ⟨by simpa using hr1, ?_⟩
          intro j hj
          cases j with
          | zero => simp [hd']
          | succ j2 =>
            have hj2 : j2 < m := by omega
            simpa using hr2 j2 hj2
        · rintro ⟨h1, h2⟩
          have hr2 : ∀ j, j < m → (rest[j]?).map snapDone = some false := by
            intro j hj
            have := h2 (j + 1) (by omega)
            simpa using this
          have hr1 : (rest[m]?).map snapDone = some true := by simpa using h1
          rw [(ih m).mpr ⟨hr1, hr2⟩]
          rfl

/-- The wait loop reports no index exactly when no polled snapshot satisfies
the rendezvous. -/
theorem waitCond_idx_none (snaps : List Snapshot) :
    (waitCond snaps).2 = none ↔ ∀ s2 ∈ snaps, snapDone s2 = false := by
  induction snaps with
  | nil => simp [waitCond]
  | cons s rest ih =>
    rw [waitCond_cons]
    by_cases hd : snapDone s = true
    · rw [if_pos hd]
      simp [hd]
    · have hd' : snapDone s = false := by simpa using hd
      rw [if_neg hd]
      simp only [Option.map_eq_none']
      simp [hd', ih]

/-- A successful wait renders exactly one progress line per consumed
snapshot, the terminating tick included. -/
theorem waitCond_lines_some (snaps : List Snapshot) (n : Nat)
    (h : (waitCond snaps).2 = some n) :
    (waitCond snaps).1 = (snaps.take (n + 1)).map statusLine := by
  induction snaps generalizing n with
  | nil => simp [waitCond] at h
  | cons s rest ih =>
    rw [waitCond_cons] at h ⊢
    by_cases hd : snapDone s = true
    · rw [if_pos hd] at h ⊢
      have hn : n = 0 := by simpa using h.symm
      subst hn
      simp
    · rw [if_neg hd] at h ⊢
      obtain ⟨a, ha, hae⟩ := Option.map_eq_some'.mp h
      cases n with
      | zero => omega
      | succ m =>
        have ham : a = m := by omega
        rw [ham] at ha
        simp [List.take_succ_cons, ih m ha]

/-- An unsatisfied wait renders one progress line per polled snapshot. -/
theorem waitCond_lines_none (snaps : List Snapshot)
    (h : (waitCond snaps).2 = none) :
    (waitCond snaps).1 = snaps.map statusLine := by
  induction snaps with
  | nil => simp [waitCond]
  | cons s rest ih =>
    rw [waitCond_cons] at h ⊢
    by_cases hd : snapDone s = true
    · rw [if_pos hd] at h; simp at h
    · rw [if_neg hd] at h ⊢
      simp only [Option.map_eq_none'] at h
      simp [ih h]

/-- The result read does not occur among the prelude effects. -/
theorem readResult_not_mem_prelude (job : HashdParamsJob) :
    Effect.readResult ∉ runPrelude job := by
  cases hp : job.passive <;> simp [runPrelude, hp]

/-- The result read does not occur among the start-request effects. -/
theorem readResult_not_mem_start (d : Defaults) (job : HashdParamsJob) :
    Effect.readResult ∉ startRequest d job := by
  cases hf : job.fake_cpu_load <;> simp [startRequest, hf]

/-- The result read does not occur among the poll ticks. -/
theorem readResult_not_mem_ticks (ls : List String) :
    Effect.readResult ∉ ls.map Effect.pollTick := by
  simp

/-- Claim C1: the wait loop terminates exactly at the sequence rendezvous —
it reports index n iff the n-th polled snapshot is the first with
`bench.hashd_seq >= cmd.bench_hashd_seq` (so it never stops on a tick with
bench < cmd), the persisted EstimationResult is read iff the rendezvous was
reached, no result is produced when it never holds, and on success the read
is the last effect of the run, after every poll tick. -/
theorem hashd_params_wait_rendezvous (job : HashdParamsJob) (d : Defaults)
    (snaps : List Snapshot) (persisted : HashdKnobs) (n : Nat) :
    ((waitCond snaps).2 = some n ↔
      ((snaps[n]?).map snapDone = some true ∧
        ∀ j, j < n → (snaps[j]?).map snapDone = some false)) ∧
    (Effect.readResult ∈ (job.run d snaps persisted).1 ↔ (waitCond snaps).2.isSome = true) ∧
    ((job.run d snaps persisted).2 = some persisted ↔ (waitCond snaps).2.isSome = true) ∧
    ((waitCond snaps).2 = none → (job.run d snaps persisted).2 = none) ∧
    ((waitCond snaps).2 = some n →
      (job.run d snaps persisted).1.getLast? = some Effect.readResult) := by
  refine ⟨waitCond_idx_iff snaps n, ?_, ?_, ?_, ?_⟩
  · cases hw : (waitCond snaps).2 with
    | none =>
      simp only [HashdParamsJob.run, hw, Option.isSome_none]
      simp [readResult_not_mem_prelude job, readResult_not_mem_start d job,
        readResult_not_mem_ticks]
    | some i => simp [HashdParamsJob.run, hw]
  · cases hw : (waitCond snaps).2 with
    | none => simp [HashdParamsJob.run, hw]
    | some i => simp [HashdParamsJob.run, hw]
  · intro hw; simp [HashdParamsJob.run, hw]
  · intro hw
    have htr : (job.run d snaps persisted).1 =
        (runPrelude job ++ startRequest d job ++
          (waitCond snaps).1.map Effect.pollTick) ++ [Effect.readResult] := by
      simp only [HashdParamsJob.run, hw]
    rw [htr, List.getLast?_concat]

/-- Every segment of the progress line occurs verbatim inside the rendered
line. -/
theorem mem_strConcat_infix (x : String) (l : List String) (h : x ∈ l) :
    List.IsInfix x.data (strConcat l).data := by
  induction l with
  | nil => simp at h
  | cons a rest ih =>
    rcases List.mem_cons.mp h with rfl | h2
    · exact ⟨[], (strConcat rest).data, by simp [strConcat, String.data_append]⟩
    · obtain ⟨u, v, huv⟩ := ih h2
      refine ⟨a.data ++ u, v, ?_⟩
      have hc : (strConcat (a :: rest)).data = a.data ++ (strConcat rest).data := by
        simp [strConcat, String.data_append]
      rw [hc, ← huv]
      simp [List.append_assoc]

/-- Claim C7: one progress line is rendered per poll tick regardless of
termination (up to and including the terminating tick on success, on every
tick when the rendezvous is never reached); the rendered line carries the
workload phase name, the probed memory size and each throughput/latency slot
verbatim; an absent reading renders its slot as the dashed placeholder; the
rendering is a total function (it never crashes). -/
theorem hashd_params_progress_line (snaps : List Snapshot) (s : Snapshot) (n : Nat) :
    ((waitCond snaps).2 = some n → (waitCond snaps).1 = (snaps.take (n + 1)).map statusLine) ∧
    ((waitCond snaps).2 = none → (waitCond snaps).1 = snaps.map statusLine) ∧
    (∀ x ∈ statusSegments s, List.IsInfix x.data (statusLine s).data) ∧
    s.phase_name ∈ statusSegments s ∧
    padLeft5 (format_size s.mem_probe_size) ∈ statusSegments s ∧
    padLeft5 (format_size_dashed s.io_rbps) ∈ statusSegments s ∧
    padLeft5 (format_size_dashed s.io_wbps) ∈ statusSegments s ∧
    padLeft5 (format_duration_dashed s.lat_p50) ∈ statusSegments s ∧
    padLeft5 (format_duration_dashed s.lat_p90) ∈ statusSegments s ∧
    padLeft5 (format_duration_dashed s.lat_p99) ∈ statusSegments s ∧
    (s.io_rbps = none → format_size_dashed s.io_rbps = "-") ∧
    (s.io_wbps = none → format_size_dashed s.io_wbps = "-") ∧
    (s.lat_p50 = none → format_duration_dashed s.lat_p50 = "-") ∧
    (s.lat_p90 = none → format_duration_dashed s.lat_p90 = "-") ∧
    (s.lat_p99 = none → format_duration_dashed s.lat_p99 = "-") := by
  refine ⟨waitCond_lines_some snaps n, waitCond_lines_none snaps,
    fun x hx => mem_strConcat_infix x (statusSegments s) hx,
    ?_, ?_, ?_, ?_, ?_, ?_, ?_,
    fun h => by rw [h]; rfl, fun h => by rw [h]; rfl, fun h => by rw [h]; rfl,
    fun h => by rw [h]; rfl, fun h => by rw [h]; rfl⟩ <;> simp [statusSegments]

/-- Discriminator for the two start-request effects. -/
def isStartReq : Effect → Bool
  | Effect.startFakeCpuBench _ => true
  | Effect.startHashdBench _ _ _ => true
  | _ => false

/-- The prelude holds no start request. -/
theorem runPrelude_filter (job : HashdParamsJob) :
    (runPrelude job).filter isStartReq = [] ∧
    (runPrelude job).filter (fun e => !isStartReq e) = runPrelude job := by
  cases hp : job.passive <;> simp [runPrelude, hp, isStartReq]

/-- Poll ticks hold no start request. -/
theorem ticks_filter (ls : List String) :
    (ls.map Effect.pollTick).filter isStartReq = [] ∧
    (ls.map Effect.pollTick).filter (fun e => !isStartReq e) = ls.map Effect.pollTick := by
  induction ls with
  | nil => simp
  | cons a rest ih => simp [isStartReq, ih.1, ih.2]

/-- The branch on `fake_cpu_load` issues exactly one start request. -/
theorem startRequest_filter (d : Defaults) (job : HashdParamsJob) :
    (startRequest d job).filter isStartReq = startRequest d job ∧
    (startRequest d job).filter (fun e => !isStartReq e) = [] := by
  cases hf : job.fake_cpu_load <;> simp [startRequest, hf, isStartReq]

/-- The agent is started by every run's prelude. -/
theorem startAgent_mem_prelude (job : HashdParamsJob) :
    Effect.startAgent ∈ runPrelude job := by
  cases hp : job.passive <;> simp [runPrelude, hp]

/-- Claim C2, amended: the fake-cpu-load path is not free of side effects —
it shares every effect of the delegated path except the start request: with
identical configuration (up to the mode switch), snapshots and persisted
report, the two runs produce the same trace once the single start request is
filtered out and the same result; the fake path's one start request is the
fake-CPU bench construction, the delegated path's is the hashd bench start;
and on the fake path the agent is still started and, when passive is set, the
memory-protection relaxation still happens. -/
theorem hashd_params_fake_cpu_frame (job : HashdParamsJob) (d : Defaults)
    (snaps : List Snapshot) (persisted : HashdKnobs) :
    ((HashdParamsJob.run { job with fake_cpu_load := true } d snaps persisted).1.filter
        (fun e => !isStartReq e) =
      (HashdParamsJob.run { job with fake_cpu_load := false } d snaps persisted).1.filter
        (fun e => !isStartReq e)) ∧
    ((HashdParamsJob.run { job with fake_cpu_load := true } d snaps persisted).2 =
      (HashdParamsJob.run { job with fake_cpu_load := false } d snaps persisted).2) ∧
    ((HashdParamsJob.run { job with fake_cpu_load := true } d snaps persisted).1.filter
        isStartReq = [Effect.startFakeCpuBench (mkHashdFakeCpuBench d job)]) ∧
    ((HashdParamsJob.run { job with fake_cpu_load := false } d snaps persisted).1.filter
        isStartReq =
      [Effect.startHashdBench job.balloon_size job.log_bps (extraArgs job)]) ∧
    Effect.startAgent ∈ (HashdParamsJob.run { job with fake_cpu_load := true } d snaps persisted).1 ∧
    (job.passive = true → Effect.setPassiveKeepCritMemProt ∈
      (HashdParamsJob.run { job with fake_cpu_load := true } d snaps persisted).1) := by
  have hpre : runPrelude { job with fake_cpu_load := true } =
      runPrelude { job with fake_cpu_load := false } := rfl
  have hmkT : mkHashdFakeCpuBench d { job with fake_cpu_load := true } =
      mkHashdFakeCpuBench d job := rfl
  have hexT : extraArgs { job with fake_cpu_load := false } = extraArgs job := rfl
  have hstT : startRequest d { job with fake_cpu_load := true } =
      [Effect.startFakeCpuBench (mkHashdFakeCpuBench d job)] := by
    simp [startRequest, hmkT]
  have hstF : startRequest d { job with fake_cpu_load := false } =
      [Effect.startHashdBench job.balloon_size job.log_bps (extraArgs job)] := by
    simp [startRequest, hexT]
  have hmain : ∀ hp : job.passive = true,
      Effect.setPassiveKeepCritMemProt ∈
        (HashdParamsJob.run { job with fake_cpu_load := true } d snaps persisted).1 := by
    intro hp
    cases hw : (waitCond snaps).2 <;>
      simp [HashdParamsJob.run, hw, runPrelude, hp]
  have hf3 : ∀ jb : HashdParamsJob,
      List.filter (fun e => !isStartReq e) (runPrelude jb) = runPrelude jb :=
    fun jb => (runPrelude_filter jb).2
  have hg1 : ∀ jb : HashdParamsJob, List.filter isStartReq (runPrelude jb) = [] :=
    fun jb => (runPrelude_filter jb).1
  have hcF : ∀ b, isStartReq (Effect.startFakeCpuBench b) = true := fun b => rfl
  have hcH : ∀ a b c, isStartReq (Effect.startHashdBench a b c) = true :=
    fun a b c => rfl
  have hcR : isStartReq Effect.readResult = false := rfl
  refine ⟨?_, ?_, ?_, ?_, ?_, hmain⟩
  · cases hw : (waitCond snaps).2 <;>
      simp [HashdParamsJob.run, hw, List.filter_append, List.filter_cons, hstT, hstF, hpre,
        hcF, hcH, hcR, hf3, (ticks_filter _).2]
  · cases hw : (waitCond snaps).2 <;> simp [HashdParamsJob.run, hw]
  · cases hw : (waitCond snaps).2 <;>
      simp [HashdParamsJob.run, hw, List.filter_append, List.filter_cons, hstT,
        hcF, hcR, hg1, (ticks_filter _).1]
  · cases hw : (waitCond snaps).2 <;>
      simp [HashdParamsJob.run, hw, List.filter_append, List.filter_cons, hstF,
        hcH, hcR, hg1, (ticks_filter _).1]
  · cases hw : (waitCond snaps).2 <;>
      simp [HashdParamsJob.run, hw, startAgent_mem_prelude]

/-- A polled snapshot on which the rendezvous does not yet hold (bench 1 < cmd 2),
with every throughput/latency reading absent. -/
def snapA : Snapshot :=
  { cmd_bench_hashd_seq := 2, bench_hashd_seq := 1, phase_name := "bench"
    mem_probe_size := 2048, io_rbps := none, io_wbps := none
    lat_p50 := none, lat_p90 := none, lat_p99 := none }

/-- A polled snapshot on which the rendezvous holds (bench 2 >= cmd 2), with
all readings present. -/
def snapB : Snapshot :=
  { cmd_bench_hashd_seq := 2, bench_hashd_seq := 2, phase_name := "bench"
    mem_probe_size := 4096, io_rbps := some 512, io_wbps := some 256
    lat_p50 := some 5, lat_p90 := some 9, lat_p99 := some 20 }

/-- A fake-cpu-load configuration with passive set, used in counterexamples. -/
def cexJob : HashdParamsJob :=
  { passive := true, balloon_size := 4096, log_bps := 1024, fake_cpu_load := true
    hash_size := none, chunk_pages := none, rps_max := none }

/-- A concrete persisted report used as stub input in closed statements. -/
def stubKnobs : HashdKnobs :=
  { hash_size := 1024, rps_max := 600, mem_size := 8192, mem_frac := 1, chunk_pages := 25 }

/-- Claim C2, counterexample to the claim as stated: with fake-cpu-load (and
passive) set, the run still starts the external agent, still relaxes the
memory-protection invariant, still enters the poll loop (a poll tick for the
first snapshot is in the trace) and still reads the result from the persisted
report — the local path is not side-effect-free and not synchronous. -/
theorem hashd_params_fake_cpu_side_effects_cex :
    cexJob.fake_cpu_load = true ∧
    Effect.startAgent ∈ (cexJob.run dfl [snapA, snapB] stubKnobs).1 ∧
    Effect.setPassiveKeepCritMemProt ∈ (cexJob.run dfl [snapA, snapB] stubKnobs).1 ∧
    Effect.pollTick (statusLine snapA) ∈ (cexJob.run dfl [snapA, snapB] stubKnobs).1 ∧
    Effect.readResult ∈ (cexJob.run dfl [snapA, snapB] stubKnobs).1 := by
  refine ⟨rfl, ?_, ?_, ?_, ?_⟩ <;>
    simp [HashdParamsJob.run, cexJob, dfl, runPrelude, startRequest, waitCond,
      waitClosure, snapDone, snapA, snapB]

/-- Two appended strings with distinct 9-character prefixes are distinct,
whatever follows the prefixes. -/
theorem append_ne_of_take9 (p q t u : String) (hp : 9 ≤ p.data.length)
    (hq : 9 ≤ q.data.length) (hne : p.data.take 9 ≠ q.data.take 9) :
    p ++ t ≠ q ++ u := by
  intro h
  apply hne
  have hd := congrArg (fun s : String => s.data.take 9) h
  simpa [String.data_append, List.take_append_of_le_length hp,
    List.take_append_of_le_length hq] using hd

/-- Claim C5: the delegated start request always passes the balloon size and
the log rate; and for each overridable option the start-argument list carries
the exact argument `--bench-hash-size=N` / `--bench-chunk-pages=N` /
`--bench-rps-max=N` when the option is overridden with N, and carries no such
argument when the option is unset. -/
theorem hashd_params_start_args (job : HashdParamsJob) (d : Defaults)
    (snaps : List Snapshot) (persisted : HashdKnobs) (v : Nat) :
    (job.hash_size = some v → ("--bench-hash-size=" ++ natToStr v) ∈ extraArgs job) ∧
    (job.hash_size = none → ("--bench-hash-size=" ++ natToStr v) ∉ extraArgs job) ∧
    (job.chunk_pages = some v → ("--bench-chunk-pages=" ++ natToStr v) ∈ extraArgs job) ∧
    (job.chunk_pages = none → ("--bench-chunk-pages=" ++ natToStr v) ∉ extraArgs job) ∧
    (job.rps_max = some v → ("--bench-rps-max=" ++ natToStr v) ∈ extraArgs job) ∧
    (job.rps_max = none → ("--bench-rps-max=" ++ natToStr v) ∉ extraArgs job) ∧
    (job.fake_cpu_load = false →
      Effect.startHashdBench job.balloon_size job.log_bps (extraArgs job) ∈
        (job.run d snaps persisted).1) := by
  refine ⟨fun h => ?_, fun h => ?_, fun h => ?_, fun h => ?_, fun h => ?_, fun h => ?_,
    fun h => ?_⟩
  · simp [extraArgs, h]
  · intro hmem
    cases hc : job.chunk_pages <;> cases hr : job.rps_max <;>
      simp [extraArgs, h, hc, hr] at hmem <;>
      rcases hmem with hmem | hmem <;>
      exact append_ne_of_take9 _ _ _ _ (by decide) (by decide) (by decide) hmem
  · simp [extraArgs, h]
  · intro hmem
    cases hh : job.hash_size <;> cases hr : job.rps_max <;>
      simp [extraArgs, h, hh, hr] at hmem <;>
      rcases hmem with hmem | hmem <;>
      exact append_ne_of_take9 _ _ _ _ (by decide) (by decide) (by decide) hmem
  · simp [extraArgs, h]
  · intro hmem
    cases hh : job.hash_size <;> cases hc : job.chunk_pages <;>
      simp [extraArgs, h, hh, hc] at hmem <;>
      rcases hmem with hmem | hmem <;>
      exact append_ne_of_take9 _ _ _ _ (by decide) (by decide) (by decide) hmem
  · cases hw : (waitCond snaps).2 <;>
      simp [HashdParamsJob.run, hw, startRequest, h]

/-- Claim C4: on the fake-cpu-load path the start request and the resulting
estimation carry — hash size from the configured override, else the default
profile's mean file size; chunk pages from the override, else the default
profile's chunk page count; max request rate from the override, else the
fixed fallback ceiling `BENCH_FAKE_CPU_RPS_MAX`; the file fraction copied
unchanged from the default profile into the request, the memory fraction
copied unchanged into the result, and the memory size the default footprint
size. -/
theorem hashd_params_fake_cpu_params (d : Defaults) (job : HashdParamsJob) (v : Nat) :
    (job.hash_size = some v → (mkHashdFakeCpuBench d job).hash_size = v) ∧
    (job.hash_size = none →
      (mkHashdFakeCpuBench d job).hash_size = d.params_file_size_mean) ∧
    (job.chunk_pages = some v → (mkHashdFakeCpuBench d job).chunk_pages = v) ∧
    (job.chunk_pages = none →
      (mkHashdFakeCpuBench d job).chunk_pages = d.params_chunk_pages) ∧
    (job.rps_max = some v → (mkHashdFakeCpuBench d job).rps_max = v) ∧
    (job.rps_max = none →
      (mkHashdFakeCpuBench d job).rps_max = d.bench_fake_cpu_rps_max) ∧
    (mkHashdFakeCpuBench d job).file_frac = d.params_file_frac ∧
    (fakeCpuLocalResult d job).hash_size = (mkHashdFakeCpuBench d job).hash_size ∧
    (fakeCpuLocalResult d job).chunk_pages = (mkHashdFakeCpuBench d job).chunk_pages ∧
    (fakeCpuLocalResult d job).rps_max = (mkHashdFakeCpuBench d job).rps_max ∧
    (fakeCpuLocalResult d job).mem_size = d.args_size ∧
    (fakeCpuLocalResult d job).mem_frac = d.params_mem_frac := by
  refine ⟨fun h => ?_, fun h => ?_, fun h => ?_, fun h => ?_, fun h => ?_, fun h => ?_,
    rfl, rfl, rfl, rfl, rfl, rfl⟩ <;> simp [mkHashdFakeCpuBench, h]

/-- Every digit character is an ASCII digit. -/
theorem digitChar_isDigit (d : Nat) : (digitChar d).isDigit = true := by
  unfold digitChar
  split_ifs <;> decide

/-- Every character of a decimal rendering is an ASCII digit. -/
theorem natDigitsAux_digits : ∀ (fuel n : Nat) (c : Char),
    c ∈ natDigitsAux fuel n → c.isDigit = true := by
  intro fuel
  induction fuel with
  | zero => intro n c h; simp [natDigitsAux] at h
  | succ f ih =>
    intro n c h
    rw [natDigitsAux] at h
    by_cases hn : n < 10
    · rw [if_pos hn] at h
      rw [List.mem_singleton.mp h]
      exact digitChar_isDigit n
    · rw [if_neg hn] at h
      rcases List.mem_append.mp h with h2 | h2
      · exact ih _ _ h2
      · rw [List.mem_singleton.mp h2]
        exact digitChar_isDigit _


/-- Every character of `natToStr` is an ASCII digit. -/
theorem natToStr_digits (n : Nat) (c : Char) (h : c ∈ (natToStr n).data) :
    c.isDigit = true :=
  natDigitsAux_digits (n + 1) n c h

/-- An ASCII digit is not a newline. -/
theorem digit_ne_nl (c : Char) (h : c.isDigit = true) : c ≠ '\n' := by
  intro hc; rw [hc] at h; exact absurd h (by decide)

/-- An ASCII digit is not a decimal point. -/
theorem digit_ne_dot (c : Char) (h : c.isDigit = true) : c ≠ '.' := by
  intro hc; rw [hc] at h; exact absurd h (by decide)

/-- Characters of two appended strings come from one of the two parts. -/
theorem append_chars {p q : String} {c : Char} (h : c ∈ (p ++ q).data) :
    c ∈ p.data ∨ c ∈ q.data := by
  rw [String.data_append] at h
  exact List.mem_append.mp h

/-- `format_size` never renders a newline. -/
theorem format_size_no_nl (v : Nat) (c : Char) (h : c ∈ (format_size v).data) :
    c ≠ '\n' := by
  unfold format_size at h
  split_ifs at h <;>
    (rcases append_chars h with h2 | h2
     · exact digit_ne_nl _ (natToStr_digits _ _ h2)
     · intro hc; rw [hc] at h2; revert h2; decide)

/-- Decimal renderings of numbers below 10 have one digit at most. -/
theorem natDigitsAux_len1 : ∀ (fuel n : Nat), n < 10 →
    (natDigitsAux fuel n).length ≤ 1 := by
  intro fuel n h
  cases fuel with
  | zero => simp [natDigitsAux]
  | succ f => rw [natDigitsAux, if_pos h]; rfl

/-- Decimal renderings of numbers below 100 have two digits at most. -/
theorem natDigitsAux_len2 : ∀ (fuel n : Nat), n < 100 →
    (natDigitsAux fuel n).length ≤ 2 := by
  intro fuel n h
  cases fuel with
  | zero => simp [natDigitsAux]
  | succ f =>
    rw [natDigitsAux]
    by_cases hn : n < 10
    · rw [if_pos hn]; simp
    · rw [if_neg hn]
      rw [List.length_append]
      have : (natDigitsAux f (n / 10)).length ≤ 1 := natDigitsAux_len1 f (n / 10) (by omega)
      simp only [List.length_singleton]
      omega

/-- Decimal renderings of numbers below 1000 have three digits at most. -/
theorem natDigitsAux_len3 : ∀ (fuel n : Nat), n < 1000 →
    (natDigitsAux fuel n).length ≤ 3 := by
  intro fuel n h
  cases fuel with
  | zero => simp [natDigitsAux]
  | succ f =>
    rw [natDigitsAux]
    by_cases hn : n < 10
    · rw [if_pos hn]; simp
    · rw [if_neg hn]
      rw [List.length_append]
      have : (natDigitsAux f (n / 10)).length ≤ 2 := natDigitsAux_len2 f (n / 10) (by omega)
      simp only [List.length_singleton]
      omega

/-- Zero-pad a string on the left to width three, as Rust renders a
three-digit fractional part. -/
def pad3 (s : String) : String :=
  if 3 ≤ s.length then s else String.mk (List.replicate (3 - s.length) '0') ++ s

/-- Rust's fixed three-decimal formatting `{:.3}` of the f64 memory fraction,
on its rational model: sign, integer part, decimal point, and exactly three
fractional digits of the value rounded to thousandths. -/
def formatFrac3 (q : ℚ) : String :=
  (if q < 0 then "-" else "") ++
    natToStr ((Rat.floor (|q| * 1000 + 1 / 2)).toNat / 1000) ++ "." ++
    pad3 (natToStr ((Rat.floor (|q| * 1000 + 1 / 2)).toNat % 1000))

/-- Characters of a padded string come from the padding zeros or the string. -/
theorem pad3_chars (s : String) (c : Char) (h : c ∈ (pad3 s).data) :
    c = '0' ∨ c ∈ s.data := by
  unfold pad3 at h
  split_ifs at h
  · exact Or.inr h
  · rcases append_chars h with h2 | h2
    · exact Or.inl (List.eq_of_mem_replicate h2)
    · exact Or.inr h2

/-- Padding to width three yields width exactly three on inputs of width at
most three. -/
theorem pad3_length (s : String) (h : s.length ≤ 3) : (pad3 s).length = 3 := by
  unfold pad3
  split_ifs with h3
  · omega
  · show (String.mk (List.replicate (3 - s.length) '0') ++ s).data.length = 3
    rw [String.data_append, List.length_append, List.length_replicate]
    have : s.data.length = s.length := rfl
    omega

/-- `formatFrac3` never renders a newline. -/
theorem formatFrac3_no_nl (q : ℚ) (c : Char) (h : c ∈ (formatFrac3 q).data) :
    c ≠ '\n' := by
  unfold formatFrac3 at h
  rcases append_chars h with h1 | h1
  · rcases append_chars h1 with h2 | h2
    · rcases append_chars h2 with h3 | h3
      · split_ifs at h3 <;> (intro hc; rw [hc] at h3; revert h3; decide)
      · exact digit_ne_nl _ (natToStr_digits _ _ h3)
    · intro hc; rw [hc] at h2; revert h2; decide
  · rcases pad3_chars _ _ h1 with rfl | h2
    · decide
    · exact digit_ne_nl _ (natToStr_digits _ _ h2)

/-- Splitting a character list at every occurrence of a separator. -/
def splitOnChar (cSep : Char) : List Char → List (List Char)
  | [] => [[]]
  | x :: xs =>
    match splitOnChar cSep xs with
    | [] => [[]]
    | g :: gs => if x = cSep then [] :: g :: gs else (x :: g) :: gs

/-- The split of a list is never empty. -/
theorem splitOnChar_ne_nil (cSep : Char) (l : List Char) : splitOnChar cSep l ≠ [] := by
  cases l with
  | nil => simp [splitOnChar]
  | cons x xs =>
    simp only [splitOnChar]
    rcases hs : splitOnChar cSep xs with _ | ⟨g, gs⟩
    · simp
    · split_ifs <;> simp

/-- A leading separator contributes one empty line. -/
theorem splitOnChar_cons_sep (cSep : Char) (b : List Char) :
    splitOnChar cSep (cSep :: b) = [] :: splitOnChar cSep b := by
  simp only [splitOnChar]
  rcases hs : splitOnChar cSep b with _ | ⟨g, gs⟩
  · exact absurd hs (splitOnChar_ne_nil cSep b)
  · simp

/-- A separator-free prefix followed by a separator contributes that prefix
as one line. -/
theorem splitOnChar_append (cSep : Char) (a b : List Char) (h : ∀ x ∈ a, x ≠ cSep) :
    splitOnChar cSep (a ++ cSep :: b) = a :: splitOnChar cSep b := by
  induction a with
  | nil => simpa using splitOnChar_cons_sep cSep b
  | cons x xs ih =>
    have hx : x ≠ cSep := h x (List.mem_cons_self x xs)
    have hxs : ∀ y ∈ xs, y ≠ cSep := fun y hy => h y (List.mem_cons_of_mem x hy)
    rw [List.cons_append]
    simp only [splitOnChar, ih hxs]
    rw [if_neg hx]

/-- The payload of the first `writeln!` of `HashdParamsJob::format`:
"Params: balloon_size={} log_bps={}" with both sizes in human-readable byte
units. -/
def lineA (job : HashdParamsJob) : String :=
  strConcat ["Params: ", "balloon_size=" ++ format_size job.balloon_size, " ",
    "log_bps=" ++ format_size job.log_bps]

/-- The non-blank payload of the second `writeln!` of
`HashdParamsJob::format`: "Result: hash_size={} rps_max={} mem_size={}
mem_frac={:.3} chunk_pages={}". -/
def lineB (res : HashdKnobs) : String :=
  strConcat ["Result: ", "hash_size=" ++ format_size res.hash_size, " ",
    "rps_max=" ++ natToStr res.rps_max, " ", "mem_size=" ++ format_size res.mem_size,
    " ", "mem_frac=" ++ formatFrac3 res.mem_frac, " ",
    "chunk_pages=" ++ natToStr res.chunk_pages]

/-- `HashdParamsJob::format`: two `writeln!` calls, the second one's payload
beginning with a blank line ("\nResult: ...").  The deserialized result is a
well-formed `HashdKnobs` (a malformed shape is unrepresentable here, matching
the source's `unwrap` treating it as fatal); formatting itself is a total
function. -/
def HashdParamsJob.format (job : HashdParamsJob) (res : HashdKnobs) : String :=
  lineA job ++ "\n" ++ ("\n" ++ lineB res ++ "\n")

/-- The non-empty lines of a rendered text. -/
def nonEmptyLines (s : String) : List String :=
  ((splitOnChar '\n' s.data).filter (fun g => !g.isEmpty)).map (fun g => String.mk g)

/-- Data of a segment concatenation, one step. -/
theorem strConcat_data_cons (a : String) (l : List String) :
    (strConcat (a :: l)).data = a.data ++ (strConcat l).data := by
  simp [strConcat, String.data_append]

/-- Characters of a concatenation come from one of the segments. -/
theorem strConcat_chars (l : List String) (c : Char) (h : c ∈ (strConcat l).data) :
    ∃ x ∈ l, c ∈ x.data := by
  induction l with
  | nil => simp [strConcat] at h
  | cons a rest ih =>
    rw [strConcat_data_cons] at h
    rcases List.mem_append.mp h with h2 | h2
    · exact ⟨a, List.mem_cons_self a rest, h2⟩
    · obtain ⟨x, hx, hc⟩ := ih h2
      exact ⟨x, List.mem_cons_of_mem a hx, hc⟩

/-- A list that is not nil is not empty. -/
theorem isEmpty_false_of_ne_nil {α : Type} (l : List α) (h : l ≠ []) :
    l.isEmpty = false := by
  cases l with
  | nil => exact absurd rfl h
  | cons a t => rfl

/-- Rebuilding a string from its data gives back the string. -/
theorem mk_data (s : String) : String.mk s.data = s := by
  cases s; rfl

/-- The first formatted line never contains a newline. -/
theorem lineA_no_nl (job : HashdParamsJob) : ∀ x ∈ (lineA job).data, x ≠ '\n' := by
  intro x hx
  obtain ⟨seg, hseg, hc⟩ := strConcat_chars _ x hx
  simp only [List.mem_cons, List.not_mem_nil, or_false] at hseg
  rcases hseg with rfl | rfl | rfl | rfl
  · intro hEq; rw [hEq] at hc; revert hc; decide
  · rcases append_chars hc with h2 | h2
    · intro hEq; rw [hEq] at h2; revert h2; decide
    · exact format_size_no_nl _ _ h2
  · intro hEq; rw [hEq] at hc; revert hc; decide
  · rcases append_chars hc with h2 | h2
    · intro hEq; rw [hEq] at h2; revert h2; decide
    · exact format_size_no_nl _ _ h2

/-- The second formatted line never contains a newline. -/
theorem lineB_no_nl (res : HashdKnobs) : ∀ x ∈ (lineB res).data, x ≠ '\n' := by
  intro x hx
  obtain ⟨seg, hseg, hc⟩ := strConcat_chars _ x hx
  simp only [List.mem_cons, List.not_mem_nil, or_false] at hseg
  rcases hseg with rfl | rfl | rfl | rfl | rfl | rfl | rfl | rfl | rfl | rfl
  · intro hEq; rw [hEq] at hc; revert hc; decide
  · rcases append_chars hc with h2 | h2
    · intro hEq; rw [hEq] at h2; revert h2; decide
    · exact format_size_no_nl _ _ h2
  · intro hEq; rw [hEq] at hc; revert hc; decide
  · rcases append_chars hc with h2 | h2
    · intro hEq; rw [hEq] at h2; revert h2; decide
    · exact digit_ne_nl _ (natToStr_digits _ _ h2)
  · intro hEq; rw [hEq] at hc; revert hc; decide
  · rcases append_chars hc with h2 | h2
    · intro hEq; rw [hEq] at h2; revert h2; decide
    · exact format_size_no_nl _ _ h2
  · intro hEq; rw [hEq] at hc; revert hc; decide
  · rcases append_chars hc with h2 | h2
    · intro hEq; rw [hEq] at h2; revert h2; decide
    · exact formatFrac3_no_nl _ _ h2
  · intro hEq; rw [hEq] at hc; revert hc; decide
  · rcases append_chars hc with h2 | h2
    · intro hEq; rw [hEq] at h2; revert h2; decide
    · exact digit_ne_nl _ (natToStr_digits _ _ h2)

/-- The first formatted line has at least its literal prefix. -/
theorem lineA_data_ne_nil (job : HashdParamsJob) : (lineA job).data ≠ [] := by
  rw [lineA, strConcat_data_cons]
  intro h
  obtain ⟨h1, h2⟩ := List.append_eq_nil.mp h
  exact absurd h1 (by decide)

/-- The second formatted line has at least its literal prefix. -/
theorem lineB_data_ne_nil (res : HashdKnobs) : (lineB res).data ≠ [] := by
  rw [lineB, strConcat_data_cons]
  intro h
  obtain ⟨h1, h2⟩ := List.append_eq_nil.mp h
  exact absurd h1 (by decide)

/-- The formatted report splits into exactly the two payload lines. -/
theorem format_nonEmptyLines (job : HashdParamsJob) (res : HashdKnobs) :
    nonEmptyLines (HashdParamsJob.format job res) = [lineA job, lineB res] := by
  have hd : (HashdParamsJob.format job res).data =
      (lineA job).data ++ '\n' :: ('\n' :: ((lineB res).data ++ '\n' :: [])) := by
    simp [HashdParamsJob.format, String.data_append, List.append_assoc]
  rw [nonEmptyLines, hd, splitOnChar_append '\n' _ _ (lineA_no_nl job),
    splitOnChar_cons_sep, splitOnChar_append '\n' _ _ (lineB_no_nl res)]
  simp [splitOnChar, isEmpty_false_of_ne_nil _ (lineA_data_ne_nil job),
    isEmpty_false_of_ne_nil _ (lineB_data_ne_nil res), mk_data]

/-- Claim C9: formatting a well-formed result is total and renders exactly
two non-empty lines — the first carrying the configured balloon size and log
rate in human-readable byte units, the second carrying hash size, max
request rate, memory size, the memory fraction with exactly three decimal
digits, and the chunk page count. -/
theorem hashd_params_format_two_lines (job : HashdParamsJob) (res : HashdKnobs) :
    nonEmptyLines (HashdParamsJob.format job res) = [lineA job, lineB res] ∧
    lineA job ≠ "" ∧ lineB res ≠ "" ∧
    List.IsInfix ("balloon_size=" ++ format_size job.balloon_size).data (lineA job).data ∧
    List.IsInfix ("log_bps=" ++ format_size job.log_bps).data (lineA job).data ∧
    List.IsInfix ("hash_size=" ++ format_size res.hash_size).data (lineB res).data ∧
    List.IsInfix ("rps_max=" ++ natToStr res.rps_max).data (lineB res).data ∧
    List.IsInfix ("mem_size=" ++ format_size res.mem_size).data (lineB res).data ∧
    List.IsInfix ("mem_frac=" ++ formatFrac3 res.mem_frac).data (lineB res).data ∧
    List.IsInfix ("chunk_pages=" ++ natToStr res.chunk_pages).data (lineB res).data ∧
    (∃ w f3, formatFrac3 res.mem_frac = w ++ "." ++ f3 ∧ f3.length = 3 ∧
      (∀ x ∈ f3.data, x.isDigit = true) ∧ ∀ x ∈ w.data, x ≠ '.') := by
  refine ⟨format_nonEmptyLines job res,
    fun h => lineA_data_ne_nil job (congrArg String.data h),
    fun h => lineB_data_ne_nil res (congrArg String.data h),
    mem_strConcat_infix _ _ (by simp [lineA]), mem_strConcat_infix _ _ (by simp [lineA]),
    mem_strConcat_infix _ _ (by simp [lineB]), mem_strConcat_infix _ _ (by simp [lineB]),
    mem_strConcat_infix _ _ (by simp [lineB]), mem_strConcat_infix _ _ (by simp [lineB]),
    mem_strConcat_infix _ _ (by simp [lineB]), ?_⟩
  refine ⟨(if res.mem_frac < 0 then "-" else "") ++
      natToStr ((Rat.floor (|res.mem_frac| * 1000 + 1 / 2)).toNat / 1000),
    pad3 (natToStr ((Rat.floor (|res.mem_frac| * 1000 + 1 / 2)).toNat % 1000)),
    rfl, ?_, ?_, ?_⟩
  · exact pad3_length _ (natDigitsAux_len3 _ _ (Nat.mod_lt _ (by omega)))
  · intro x hx
    rcases pad3_chars _ _ hx with rfl | h2
    · decide
    · exact natToStr_digits _ _ h2
  · intro x hx
    rcases append_chars hx with h2 | h2
    · split_ifs at h2 <;> (intro hEq; rw [hEq] at h2; revert h2; decide)
    · exact digit_ne_dot _ (natToStr_digits _ _ h2)

/-- A delegated-path configuration with hash-size and rps-max overridden. -/
def argJob : HashdParamsJob :=
  { passive := false, balloon_size := 1, log_bps := 2, fake_cpu_load := false
    hash_size := some 5, chunk_pages := none, rps_max := some 7 }

/-- Claim C1, witness: over the concrete snapshots, the wait consumes the
below-rendezvous tick, terminates on the rendezvous tick, and the run reads
the result. -/
theorem hashd_params_wait_rendezvous_witness :
    (waitCond [snapA, snapB]).2 = some 1 ∧
    Effect.readResult ∈ (HashdParamsJob.run cexJob dfl [snapA, snapB] stubKnobs).1 := by
  have h := hashd_params_wait_rendezvous cexJob dfl [snapA, snapB] stubKnobs 1
  exact ⟨(h.1).mpr (by decide), (h.2.1).mpr (by decide)⟩

/-- Claim C5, witness: the overridden hash size yields its exact argument,
the unset chunk pages yield none, and the start request reaches the trace. -/
theorem hashd_params_start_args_witness :
    ("--bench-hash-size=" ++ natToStr 5) ∈ extraArgs argJob ∧
    ("--bench-chunk-pages=" ++ natToStr 9) ∉ extraArgs argJob ∧
    Effect.startHashdBench 1 2 (extraArgs argJob) ∈
      (HashdParamsJob.run argJob dfl [snapB] stubKnobs).1 := by
  have h5 := hashd_params_start_args argJob dfl [snapB] stubKnobs 5
  have h9 := hashd_params_start_args argJob dfl [snapB] stubKnobs 9
  exact ⟨h5.1 rfl, h9.2.2.2.1 rfl, h5.2.2.2.2.2.2 rfl⟩

/-- Claim C4, witness: an overridden hash size is used verbatim, an unset
rps-max falls back to the fixed ceiling. -/
theorem hashd_params_fake_cpu_params_witness :
    (mkHashdFakeCpuBench dfl argJob).hash_size = 5 ∧
    (mkHashdFakeCpuBench dfl cexJob).rps_max = dfl.bench_fake_cpu_rps_max := by
  have h1 := hashd_params_fake_cpu_params dfl argJob 5
  have h2 := hashd_params_fake_cpu_params dfl cexJob 0
  exact ⟨h1.1 rfl, h2.2.2.2.2.2.1 rfl⟩

/-- Claim C8, witness: a non-boolean value fails for both flag keys with the
boolean parse error, the empty value parses as true, and a value that fits
u64 but not u32 parses for balloon yet fails for rps-max with the overflow
error — each key enforces its declared numeric type. -/
theorem hashd_params_bool_flag_parsing_witness :
    benchParse dfl [[("passive", "maybe")]] =
      Except.error (ParseError.parseFailure "provided string was not `true` or `false`") ∧
    benchParse dfl [[("fake-cpu-load", "maybe")]] =
      Except.error (ParseError.parseFailure "provided string was not `true` or `false`") ∧
    benchParse dfl [[("passive", "")]] =
      Except.ok { HashdParamsJob.default dfl with passive := true } ∧
    benchParse dfl [[("balloon", "4294967296")]] =
      Except.ok { HashdParamsJob.default dfl with balloon_size := 4294967296 } ∧
    benchParse dfl [[("rps-max", "4294967296")]] =
      Except.error (ParseError.parseFailure "number too large to fit in target type") := by
  have h := hashd_params_bool_flag_parsing dfl "maybe"
  have h2 := hashd_params_bool_flag_parsing dfl "4294967296"
  refine ⟨h.2.2.2.2.2.2.1 (by decide) (by decide) (by decide),
    h.2.2.2.2.2.2.2.1 (by decide) (by decide) (by decide),
    h.1,
    h2.2.2.2.2.2.2.2.2.2.1 4294967296 rfl,
    h2.2.2.2.2.2.2.2.2.2.2.2.2.2.2.2.2.2.2.2.2.2.2
      "number too large to fit in target type" rfl⟩

/-- Claim C2, witness: with passive set, the fake-cpu-load run still relaxes
the memory-protection invariant. -/
theorem hashd_params_fake_cpu_frame_witness :
    Effect.setPassiveKeepCritMemProt ∈
      (HashdParamsJob.run { cexJob with fake_cpu_load := true } dfl [snapA, snapB]
        stubKnobs).1 := by
  have h := hashd_params_fake_cpu_frame cexJob dfl [snapA, snapB] stubKnobs
  exact h.2.2.2.2.2 rfl

/-- Claim C7, witness: both ticks render a line, and the absent read
throughput of the first snapshot renders as the dashed placeholder. -/
theorem hashd_params_progress_line_witness :
    (waitCond [snapA, snapB]).1 = ([snapA, snapB].take 2).map statusLine ∧
    format_size_dashed snapA.io_rbps = "-" := by
  have h := hashd_params_progress_line [snapA, snapB] snapA 1
  exact ⟨h.1 (by decide), h.2.2.2.2.2.2.2.2.2.2.1 rfl⟩
